import Mathlib

/-!
A shallow embedding of `uuid6.py` (UUID version 6 generator/parser) and proofs
about it.

Python arbitrary-precision integers are modelled as `Int` (or `Nat` where the
relevant quantities are non-negative).  Every division/shift/mask in
`uuid6.py` has a positive literal divisor (`100`, powers of two), where
the Python floor-division `//`, arithmetic shift `>>` and mask `& (2^k - 1)`
agree with the `Int` operators `/` (`Int.ediv`, which floors for a positive divisor) and
`%` (`Int.emod`, a non-negative remainder), so those operators model
them exactly, also on negative operands.
-/

namespace UUID6

/-- The constant `0x01b21dd213814000` from `uuid6.py` line 59: the number of
100-ns ticks between 1582-10-15T00:00:00Z and 1970-01-01T00:00:00Z. -/
def GREGORIAN_OFFSET : Int := 0x01b21dd213814000

/-! ## Python `datetime.datetime` values

A `datetime` is modelled by its calendar fields plus an optional timezone
offset (`utcoffset` in seconds); `tzOffsetSeconds = Option.none` is a naive
datetime.  Python validates 1 ≤ year ≤ 9999, 1 ≤ month ≤ 12, etc.; these
well-formedness constraints are carried as hypotheses where needed. -/

structure PyDateTime where
  year : Nat
  month : Nat
  day : Nat
  hour : Nat
  minute : Nat
  second : Nat
  microsecond : Nat
  tzOffsetSeconds : Option Int
deriving DecidableEq, Repr

/-- Days from 1970-01-01 to year-month-day in the proleptic Gregorian
calendar (the standard "days from civil" computation, as performed inside
the CPython `datetime` module; valid for 1 ≤ year ≤ 9999). -/
def daysFromCivil (y m d : Nat) : Int :=
  let y' := if m ≤ 2 then y - 1 else y
  let era := y' / 400
  let yoe := y' % 400
  let mp := (m + 9) % 12
  let doy := (153 * mp + 2) / 5 + d - 1
  let doe := yoe * 365 + yoe / 4 - yoe / 100 + doy
  (era * 146097 + doe : Int) - 719468

/-- Epoch seconds of the calendar fields of `dt` read as UTC: the integral
part of `dt.replace(tzinfo=datetime.timezone.utc).timestamp()` (the
original `tzinfo`, if any, is discarded by `replace`). -/
def fieldsEpochSeconds (dt : PyDateTime) : Int :=
  86400 * daysFromCivil dt.year dt.month dt.day
    + 3600 * dt.hour + 60 * dt.minute + dt.second

/-- Model of `int(dt.replace(tzinfo=datetime.timezone.utc).timestamp() *
1_000_000_000)` from `uuid6.py` line 54, with exact arithmetic (the float
value of `timestamp()` is the exact rational seconds plus microseconds over
10^6, rounded; multiplying by `10^9` gives an integral nanosecond count). -/
def replaceUtcTimestampNs (dt : PyDateTime) : Int :=
  fieldsEpochSeconds dt * 1000000000 + dt.microsecond * 1000

/-- The true instant denoted by a timezone-aware `datetime`, in nanoseconds
since the epoch: the calendar fields read in the attached timezone, i.e. the
fields-as-UTC value minus the UTC offset.  `Option.none` for naive values. -/
def trueInstantNs (dt : PyDateTime) : Option Int :=
  match dt.tzOffsetSeconds with
  | Option.none => Option.none
  | Option.some off => Option.some (replaceUtcTimestampNs dt - off * 1000000000)

/-! ## Python floats

An IEEE-754 double is exactly a dyadic rational `mantissa * 2^exp2` (or an
infinity/NaN, which no claim touches).  `PyFloat` carries that exact value. -/

structure PyFloat where
  mantissa : Int
  exp2 : Int
deriving DecidableEq, Repr

/-- Whether the double multiplication `as_of * 1_000_000_000` overflows to
an infinity: under IEEE-754 round-to-nearest-even, a product whose exact
magnitude is at least `2^1024 - 2^970` (the midpoint between the largest
finite double `(2^53 - 1) * 2^971` and `2^1024`) rounds to an infinity. -/
def pyFloatProdOverflows (f : PyFloat) : Bool :=
  if 0 ≤ f.exp2 then
    (2 ^ 1024 - 2 ^ 970 : Nat)
      ≤ f.mantissa.natAbs * 1000000000 * 2 ^ f.exp2.toNat
  else
    (2 ^ 1024 - 2 ^ 970 : Nat) * 2 ^ (-f.exp2).toNat
      ≤ f.mantissa.natAbs * 1000000000

/-- The exact value `mantissa * 2^exp2 * 10^9`, truncated toward zero as the
`int()` builtin does on a finite float. -/
def pyFloatExactTsNs (f : PyFloat) : Int :=
  if 0 ≤ f.exp2 then
    f.mantissa * 1000000000 * ((2 ^ f.exp2.toNat : Nat) : Int)
  else (f.mantissa * 1000000000).tdiv ((2 ^ (-f.exp2).toNat : Nat) : Int)

/-- Model of `int(as_of * 1_000_000_000)` for a finite float `as_of`
(`uuid6.py` line 56).  When the double product overflows to an infinity,
`int()` raises `OverflowError` (for example `as_of=1e308`); otherwise the
result is the truncated product (a finite product is modelled by its exact
value). -/
def pyFloatTsNs (f : PyFloat) : Except String Int :=
  if pyFloatProdOverflows f then
    Except.error "cannot convert float infinity to integer"
  else Except.ok (pyFloatExactTsNs f)

/-! ## The `as_of` argument -/

/-- The `as_of` parameter of `uuid6`: `None`, a `datetime.datetime`, a
finite `float`, a non-finite `float` (an infinity when `isNan = false`, a
NaN when `isNan = true` — both pass the `isinstance(as_of, float)` test of
line 55), or a value of any other type/shape (unrecognized). -/
inductive AsOf where
  | absent : AsOf
  | datetime : PyDateTime → AsOf
  | float : PyFloat → AsOf
  | nonFiniteFloat : Bool → AsOf
  | other : AsOf
deriving DecidableEq

/-- Lines 51–58 of `uuid6.py`: resolve `as_of` to a nanosecond timestamp
`ts_ns`.  An unrecognized type raises `ValueError`; a float whose product
with `10^9` overflows raises `OverflowError` from `int()`; an infinite or
NaN float raises `OverflowError` or `ValueError` from `int()`.  `nowNs`
models the value `time.time_ns()` would return for the `as_of is None`
branch. -/
def tsNsOfAsOf (asOf : AsOf) (nowNs : Int) : Except String Int :=
  match asOf with
  | AsOf.absent => Except.ok nowNs
  | AsOf.datetime dt => Except.ok (replaceUtcTimestampNs dt)
  | AsOf.float f => pyFloatTsNs f
  | AsOf.nonFiniteFloat isNan =>
    if isNan then Except.error "cannot convert float NaN to integer"
    else Except.error "cannot convert float infinity to integer"
  | AsOf.other => Except.error "Unexpected value for as_of"

/-- Line 59: `time_val = (ts_ns // 100) + 0x01b21dd213814000`. -/
def timeValOfTsNs (tsNs : Int) : Int :=
  tsNs / 100 + GREGORIAN_OFFSET

/-! ## The process-wide sequence state -/

/-- The module-level state `_last_uuid_v6_time` / `_last_uuid_v6_seq`.
`lastSeq` is an `Option` because the code at line 63 tests
`_last_uuid_v6_seq is None`; the Python `None` is `Option.none`. -/
structure SeqState where
  lastTime : Int
  lastSeq : Option Int
deriving DecidableEq, Repr

/-- Lines 17–18 of `uuid6.py`: `_last_uuid_v6_time = 0`,
`_last_uuid_v6_seq = 0`.  Note the initial sequence is the integer `0`,
not `None`. -/
def initState : SeqState := SeqState.mk 0 (Option.some 0)

/-- Lines 61–68 of `uuid6.py`: the sequence-state transition.  Returns the
sequence value used for this identifier (which is exactly the stored
`_last_uuid_v6_seq` after the `if`-chain) together with the new state.
`rand14` models `random.getrandbits(14)`. -/
def seqStep (seq : Option Int) (rand14 : Int) (timeVal : Int)
    (st : SeqState) : Int × SeqState :=
  let s : Int :=
    match seq with
    | Option.some v => v
    | Option.none =>
      match st.lastSeq with
      | Option.none => rand14
      | Option.some prev => if timeVal ≤ st.lastTime then prev + 1 else prev
  (s, SeqState.mk timeVal (Option.some s))

/-- Line 70: `node = random.getrandbits(48) if seed is None else
(seed & ((1 << 48) - 1))`.  `rand48` models `random.getrandbits(48)`. -/
def nodeOf (seed : Option Int) (rand48 : Nat) : Int :=
  match seed with
  | Option.none => (rand48 : Int)
  | Option.some sd => sd % 2 ^ 48

/-! ## Packing (lines 72–78) -/

/-- Lines 73–78 of `uuid6.py`, on `Int` with the Python operator semantics:
`val = time_val >> 12; val = (val << 4) + 6; val = (val << 12) +
(time_val & 4095); val = (val << 2) + 2; val = (val << 14) + (seq & 16383);
int_val = (val << 48) + node`. -/
def packInt (timeVal sequence node : Int) : Int :=
  let v1 := timeVal / 2 ^ 12
  let v2 := v1 * 2 ^ 4 + 6
  let v3 := v2 * 2 ^ 12 + timeVal % 2 ^ 12
  let v4 := v3 * 2 ^ 2 + 2
  let v5 := v4 * 2 ^ 14 + sequence % 2 ^ 14
  v5 * 2 ^ 48 + node

/-- The same packing on `Nat` (the operative case: every claim about packed
identifiers concerns non-negative timestamps, sequences and nodes). -/
def pack (t s n : Nat) : Nat :=
  ((((t / 2 ^ 12) * 2 ^ 4 + 6) * 2 ^ 12 + t % 2 ^ 12) * 2 ^ 2 + 2) * 2 ^ 14
      * 2 ^ 48 + (s % 2 ^ 14) * 2 ^ 48 + n

theorem packInt_natCast (t s n : Nat) :
    packInt (t : Int) (s : Int) (n : Int) = (pack t s n : Int) := by
  unfold packInt pack
  push_cast
  ring

/-! ## Rendering (lines 80–90) -/

/-- Model of the Python `>>` on ints: arithmetic (floor) shift. -/
def pyShr (n : Int) (k : Nat) : Int := n / 2 ^ k

/-- Hex digits of `v`, most significant first (no leading zeros). -/
def hexDigitsBE (v : Nat) : List Nat := (Nat.digits 16 v).reverse

/-- Left-pad a digit list with zeros to width `w`. -/
def padLeftZeros (w : Nat) (l : List Nat) : List Nat :=
  List.replicate (w - l.length) 0 ++ l

/-- Rendering of the format string on line 86, 32 lowercase hex digits,
zero-padded; a negative
`n` is rendered as a sign followed by the digits of `|n|`, the whole field
padded to width 32. -/
def pyHex32 (n : Int) : String :=
  if n < 0 then
    String.mk ('-' :: (padLeftZeros 31 (hexDigitsBE n.natAbs)).map Nat.digitChar)
  else
    String.mk ((padLeftZeros 32 (hexDigitsBE n.toNat)).map Nat.digitChar)

/-- Line 90: `"-".join([hex_val[:8], hex_val[8:12], hex_val[12:16],
hex_val[16:20], hex_val[20:]])`. -/
def pyDashed (s : String) : String :=
  let l := s.data
  String.mk (l.take 8 ++ '-' :: ((l.drop 8).take 4 ++ '-' ::
    ((l.drop 12).take 4 ++ '-' :: ((l.drop 16).take 4 ++ '-' :: l.drop 20))))

/-- Value of a hex-digit character, as `int(·, base=16)` reads lowercase
hex digits (`'0'`–`'9'` and `'a'`–`'f'`). -/
def hexCharToNat (c : Char) : Nat :=
  if c.toNat ≤ 57 then c.toNat - 48 else c.toNat - 87

/-- Model of `int(s, base=16)` on a string of hex digits (the parse on line
109, after the dashes have been removed). -/
def parseHexChars (l : List Char) : Nat :=
  l.foldl (fun a c => 16 * a + hexCharToNat c) 0

/-- Model of the dash removal on line 109. -/
def stripDashes (s : String) : String :=
  String.mk (s.data.filter (fun c => c ≠ '-'))

/-- Model of line 109 (remove dashes, parse base 16), for hex strings. -/
def parseUuidStr (s : String) : Nat := parseHexChars (stripDashes s).data

/-! ## `uuid.UUID` objects -/

/-- A `uuid.UUID` object, identified by its 128-bit `int` value. -/
structure PyUUID where
  int : Nat
deriving DecidableEq, Repr

/-- Model of `uuid.UUID(int=n)` (line 82): the CPython constructor raises
`ValueError` unless `0 <= n < 2**128`. -/
def uuidOfInt (n : Int) : Except String PyUUID :=
  if 0 ≤ n ∧ n < 2 ^ 128 then Except.ok (PyUUID.mk n.toNat)
  else Except.error "int is out of range (need a 128-bit value)"

/-! ## The encoder `uuid6` (lines 21–90) -/

/-- The `fmt` parameter: one of the four literals (hex, int, uuid, str) of
the declared signature.  (Any other string would fall into the final `else`
branch and render like the str format; the public contract only admits
these four.) -/
inductive Fmt where
  | hex : Fmt
  | int : Fmt
  | uuid : Fmt
  | str : Fmt
deriving DecidableEq

/-- The encoder result: one of the four representations. -/
inductive Output where
  | intOut : Int → Output
  | hexOut : String → Output
  | strOut : String → Output
  | uuidOut : PyUUID → Output
deriving DecidableEq

/-- The packed `int_val` of lines 73–78 for a resolved nanosecond timestamp
and the given arguments/state. -/
def encodedInt (tsNs : Int) (seed seq : Option Int) (rand14 : Int)
    (rand48 : Nat) (st : SeqState) : Int :=
  let timeVal := timeValOfTsNs tsNs
  let s := (seqStep seq rand14 timeVal st).1
  packInt timeVal s (nodeOf seed rand48)

/-- The function `uuid6(fmt, as_of, seed, seq)` (lines 21–90).  The three
nondeterministic inputs are explicit: `nowNs` is `time.time_ns()`, `rand14`
is `random.getrandbits(14)`, `rand48` is `random.getrandbits(48)`.  Returns
the result (or the message of the raised `ValueError`) together with the new
process-wide state.  A `ValueError` from the `as_of` dispatch (lines 51–58)
is raised before the state update of lines 61–68; one from `uuid.UUID(int=…)`
(line 82) is raised after it. -/
def uuid6 (fmt : Fmt) (asOf : AsOf) (seed seq : Option Int)
    (nowNs : Int) (rand14 : Int) (rand48 : Nat) (st : SeqState) :
    Except String Output × SeqState :=
  match tsNsOfAsOf asOf nowNs with
  | Except.error e => (Except.error e, st)
  | Except.ok tsNs =>
    let timeVal := timeValOfTsNs tsNs
    let step := seqStep seq rand14 timeVal st
    let intVal := packInt timeVal step.1 (nodeOf seed rand48)
    match fmt with
    | Fmt.uuid => ((uuidOfInt intVal).map Output.uuidOut, step.2)
    | Fmt.int => (Except.ok (Output.intOut intVal), step.2)
    | Fmt.hex => (Except.ok (Output.hexOut (pyHex32 intVal)), step.2)
    | Fmt.str => (Except.ok (Output.strOut (pyDashed (pyHex32 intVal))), step.2)

/-! ## The decoder `uuid6_to_datetime` (lines 93–123)

The decoder is modelled after its input has been normalized to the 128-bit
integer `x` (lines 106–111: a `uuid.UUID` contributes `s.int`, a string
`int(s.replace('-',''), base=16)`, an int itself).  The recovered
`datetime` is represented by the exact instant it denotes, in integer
nanoseconds since 1970 (lines 121–123 compute it via floats;
the value is modelled exactly, see the remarks on claim C9). -/

/-- Line 120: `time_val = ((x >> 80) << 12) + ((x >> 64) & 4095)`. -/
def decodeTimeVal (x : Int) : Int :=
  (pyShr x 80) * 2 ^ 12 + (pyShr x 64) % 2 ^ 12

/-- The version nibble read at line 113: `(x >> 76) & 15`. -/
def decodeVersion (x : Int) : Int := (pyShr x 76) % 16

/-- Lines 113–123 of `uuid6_to_datetime` on the normalized integer `x`:
check the version nibble, then recover the instant
`(time_val - 0x01b21dd213814000) * 100` nanoseconds since 1970.
`Except.ok Option.none` is the Python `return None`. -/
def uuid6ToDatetime (x : Int) (suppress : Bool) : Except String (Option Int) :=
  let version := decodeVersion x
  if version = 6 then
    Except.ok (Option.some ((decodeTimeVal x - GREGORIAN_OFFSET) * 100))
  else if suppress then
    Except.ok Option.none
  else
    Except.error (toString x ++ " is a version " ++ toString version ++
      " UUID, not v6, so we cannot extract the timestamp.")

/-- The function `uuid6_to_datetime` called with its second parameter left
at its declared default, `suppress_uuid_version_error=True` (line 94). -/
def uuid6ToDatetimeDefault (x : Int) : Except String (Option Int) :=
  uuid6ToDatetime x true


/-! ## Arithmetic facts about the packed layout -/

/-- C1: for a 60-bit tick `t`, sequence `s` and 48-bit node `n`, the nested
shift/add construction of lines 73–78 equals the flat bit-layout sum
`time_high(32)|time_mid(16)|version(4)=6|time_low(12)|variant(2)=10|seq(14)|node(48)`,
and the version nibble (bits 76–79) reads 6 and the variant bits (62–63)
read `0b10`. -/
theorem C1_bit_layout (t s n : Nat) (ht : t < 2 ^ 60) (hn : n < 2 ^ 48) :
    pack t s n
      = (t / 2 ^ 12) * 2 ^ 80 + 6 * 2 ^ 76 + (t % 2 ^ 12) * 2 ^ 64
        + 2 * 2 ^ 62 + (s % 2 ^ 14) * 2 ^ 48 + n
    ∧ pack t s n / 2 ^ 76 % 2 ^ 4 = 6
    ∧ pack t s n / 2 ^ 62 % 2 ^ 2 = 2 := by
  unfold pack
  refine ⟨by ring, ?_, ?_⟩ <;> omega

theorem C1_bit_layout_witness :
    ((3 : Nat) < 2 ^ 60 ∧ (7 : Nat) < 2 ^ 48)
      ∧ pack 3 5 7 / 2 ^ 76 % 2 ^ 4 = 6 ∧ pack 3 5 7 / 2 ^ 62 % 2 ^ 2 = 2 :=
  ⟨⟨by decide, by decide⟩, (C1_bit_layout 3 5 7 (by decide) (by decide)).2.1,
    (C1_bit_layout 3 5 7 (by decide) (by decide)).2.2⟩

theorem decodeTimeVal_natCast (m : Nat) :
    decodeTimeVal (m : Int)
      = ((m / 2 ^ 80 * 2 ^ 12 + m / 2 ^ 64 % 2 ^ 12 : Nat) : Int) := by
  unfold decodeTimeVal pyShr
  push_cast
  ring

/-- C4: the decoder reassembly `((x >> 80) << 12) + ((x >> 64) & 4095)`
(line 120) recovers exactly the 60-bit tick embedded by the encoder
packing. -/
theorem C4_decode_recovers_tick (t s n : Nat) (ht : t < 2 ^ 60)
    (hn : n < 2 ^ 48) :
    decodeTimeVal (pack t s n : Int) = (t : Int) := by
  rw [decodeTimeVal_natCast]
  norm_cast
  unfold pack
  omega

theorem C4_decode_recovers_tick_witness :
    ((3 : Nat) < 2 ^ 60 ∧ (7 : Nat) < 2 ^ 48)
      ∧ decodeTimeVal (pack 3 5 7 : Int) = (3 : Int) :=
  ⟨⟨by decide, by decide⟩, C4_decode_recovers_tick 3 5 7 (by decide) (by decide)⟩

/-- C2: with the sequence state already set and `seq` not supplied, a tick
`timeVal ≤` the stored last-seen time increments the stored sequence and
uses it; a strictly greater tick reuses the stored sequence unchanged; and
every call stores the new tick as the last-seen time, whatever `seq` was —
also at the level of the whole encoder, for every call whose `as_of`
resolves. -/
theorem C2_sequence_transition (st : SeqState) (prev r timeVal : Int)
    (h : st.lastSeq = Option.some prev) :
    (timeVal ≤ st.lastTime →
      seqStep Option.none r timeVal st
        = (prev + 1, SeqState.mk timeVal (Option.some (prev + 1))))
    ∧ (st.lastTime < timeVal →
      seqStep Option.none r timeVal st
        = (prev, SeqState.mk timeVal (Option.some prev)))
    ∧ (∀ seq : Option Int, (seqStep seq r timeVal st).2.lastTime = timeVal)
    ∧ (∀ (fmt : Fmt) (asOf : AsOf) (seed seq : Option Int)
        (nowNs r14 : Int) (r48 : Nat) (st2 : SeqState) (tsNs : Int),
        tsNsOfAsOf asOf nowNs = Except.ok tsNs →
          (uuid6 fmt asOf seed seq nowNs r14 r48 st2).2.lastTime
            = timeValOfTsNs tsNs) := by
  refine ⟨?_, ?_, ?_, ?_⟩
  · intro hle
    simp [seqStep, h, if_pos hle]
  · intro hgt
    simp [seqStep, h, if_neg (not_le.mpr hgt)]
  · intro seq
    cases seq <;> simp [seqStep]
  · intro fmt asOf seed seq nowNs r14 r48 st2 tsNs hok
    cases fmt <;> simp [uuid6, hok, seqStep]

theorem C2_sequence_transition_witness :
    ((SeqState.mk 5 (Option.some 3)).lastSeq = Option.some 3
        ∧ (5 : Int) ≤ (SeqState.mk 5 (Option.some 3)).lastTime)
      ∧ seqStep Option.none 0 5 (SeqState.mk 5 (Option.some 3))
          = (4, SeqState.mk 5 (Option.some 4)) :=
  ⟨⟨rfl, by decide⟩,
    (C2_sequence_transition (SeqState.mk 5 (Option.some 3)) 3 0 5 rfl).1
      (by decide)⟩

/-- C3 (the code, as written): at process start the stored sequence is the
integer `0`, not `None` (lines 17–18), so the `_last_uuid_v6_seq is None`
branch of line 63 can never fire on the first call; with `seq` not supplied
and any positive tick, the first call uses sequence `0` — not the fresh
random 14-bit value `rand14`. -/
theorem C3_first_call_sequence_zero (r14 timeVal : Int) (h : 0 < timeVal) :
    initState.lastSeq ≠ Option.none
    ∧ (seqStep Option.none r14 timeVal initState).1 = 0 := by
  refine ⟨by simp [initState], ?_⟩
  simp only [seqStep, initState]
  rw [if_neg (by omega)]

theorem C3_first_call_sequence_zero_witness :
    (0 : Int) < 1 ∧ (seqStep Option.none 7 1 initState).1 = 0 :=
  ⟨by decide, (C3_first_call_sequence_zero 7 1 (by decide)).2⟩



/-- C5: the decoder reads the 4-bit version from bits 76–79 of the
normalized 128-bit integer; when it is not 6 it returns `None` under
`suppress_uuid_version_error=True` and raises a `ValueError` naming the
actual version under `False`; an error is raised for no other reason; and
the parameter defaults to `True`. -/
theorem C5_decoder_version_gate (x : Int) (suppress : Bool) :
    (∀ m : Nat, decodeVersion (m : Int) = ((m / 2 ^ 76 % 2 ^ 4 : Nat) : Int))
    ∧ (decodeVersion x ≠ 6 ∧ suppress = true →
        uuid6ToDatetime x suppress = Except.ok Option.none)
    ∧ (decodeVersion x ≠ 6 ∧ suppress = false →
        uuid6ToDatetime x suppress
          = Except.error (toString x ++ " is a version "
              ++ toString (decodeVersion x)
              ++ " UUID, not v6, so we cannot extract the timestamp."))
    ∧ ((∃ e, uuid6ToDatetime x suppress = Except.error e)
        ↔ decodeVersion x ≠ 6 ∧ suppress = false)
    ∧ uuid6ToDatetimeDefault x = uuid6ToDatetime x true := by
  refine ⟨?_, ?_, ?_, ?_, rfl⟩
  · intro m
    unfold decodeVersion pyShr
    push_cast
    ring
  · rintro ⟨h6, hs⟩
    subst hs
    simp [uuid6ToDatetime, h6]
  · rintro ⟨h6, hs⟩
    subst hs
    simp [uuid6ToDatetime, h6]
  · constructor
    · rintro ⟨e, he⟩
      by_cases h6 : decodeVersion x = 6
      · simp [uuid6ToDatetime, h6] at he
      · cases hsup : suppress
        · exact ⟨h6, rfl⟩
        · rw [hsup] at he
          simp [uuid6ToDatetime, h6] at he
    · rintro ⟨h6, hs⟩
      subst hs
      exact ⟨toString x ++ " is a version " ++ toString (decodeVersion x)
        ++ " UUID, not v6, so we cannot extract the timestamp.",
        by simp [uuid6ToDatetime, h6]⟩

theorem C5_decoder_version_gate_witness :
    (decodeVersion 81 ≠ 6 ∧ true = true)
      ∧ uuid6ToDatetime 81 true = Except.ok Option.none :=
  ⟨⟨by decide, rfl⟩, (C5_decoder_version_gate 81 true).2.1 ⟨by decide, rfl⟩⟩

instance {α β : Type} [DecidableEq α] [DecidableEq β] :
    DecidableEq (Except α β) := fun a b =>
  match a, b with
  | Except.ok a, Except.ok b =>
    if h : a = b then Decidable.isTrue (by rw [h])
    else Decidable.isFalse (fun hc => h (by injection hc))
  | Except.error a, Except.error b =>
    if h : a = b then Decidable.isTrue (by rw [h])
    else Decidable.isFalse (fun hc => h (by injection hc))
  | Except.ok _, Except.error _ => Decidable.isFalse (fun hc => Except.noConfusion hc)
  | Except.error _, Except.ok _ => Decidable.isFalse (fun hc => Except.noConfusion hc)

set_option maxRecDepth 4000 in
/-- C6, counterexample to the claim as stated: `as_of = 2.0 ** 100` (a float,
hence a recognized fractional-seconds timestamp) with the uuid format makes the
encoder raise: the packed value exceeds 128 bits and `uuid.UUID(int=...)`
rejects it.  So not every recognized-`as_of` call succeeds. -/
theorem C6_uuid_range_counterexample :
    AsOf.float (PyFloat.mk 1 100) ≠ AsOf.other
    ∧ (uuid6 Fmt.uuid (AsOf.float (PyFloat.mk 1 100)) (Option.some 0)
        (Option.some 0) 0 0 0 initState).1
      = Except.error "int is out of range (need a 128-bit value)" := by
  exact ⟨by decide, by decide⟩

/-- C6 (amended): the encoder raises the InvalidArgument `ValueError` iff
`as_of` is of an unrecognized type, except for two further failure modes:
a float `as_of` makes `int(as_of * 10^9)` raise `OverflowError` when the
double product overflows to an infinity (and an infinite or NaN float
`as_of` always raises from `int()`), and the uuid format fails with the
range error of the `uuid.UUID` constructor when the packed integer falls
outside `[0, 2^128)`.  In every other case the encoder succeeds: `as_of`
absent or a datetime always resolves, a finite float resolves exactly when
its product does not overflow, a resolution error propagates unchanged
(before the state update), and every resolved timestamp succeeds with the
int/hex/str formats. -/
theorem C6_invalid_argument (fmt : Fmt) (asOf : AsOf) (seed seq : Option Int)
    (nowNs r14 : Int) (r48 : Nat) (st : SeqState) :
    (asOf = AsOf.other →
      (uuid6 fmt asOf seed seq nowNs r14 r48 st).1
        = Except.error "Unexpected value for as_of")
    ∧ (∀ e, tsNsOfAsOf asOf nowNs = Except.error e →
        (uuid6 fmt asOf seed seq nowNs r14 r48 st).1 = Except.error e
          ∧ (uuid6 fmt asOf seed seq nowNs r14 r48 st).2 = st)
    ∧ tsNsOfAsOf AsOf.absent nowNs = Except.ok nowNs
    ∧ (∀ dt, tsNsOfAsOf (AsOf.datetime dt) nowNs
        = Except.ok (replaceUtcTimestampNs dt))
    ∧ (∀ f, pyFloatProdOverflows f = false →
        tsNsOfAsOf (AsOf.float f) nowNs = Except.ok (pyFloatExactTsNs f))
    ∧ (∀ f, pyFloatProdOverflows f = true →
        tsNsOfAsOf (AsOf.float f) nowNs
          = Except.error "cannot convert float infinity to integer")
    ∧ (∀ isNan, tsNsOfAsOf (AsOf.nonFiniteFloat isNan) nowNs
        = Except.error (if isNan then "cannot convert float NaN to integer"
            else "cannot convert float infinity to integer"))
    ∧ (∀ tsNs, tsNsOfAsOf asOf nowNs = Except.ok tsNs → fmt ≠ Fmt.uuid →
        ∃ out, (uuid6 fmt asOf seed seq nowNs r14 r48 st).1 = Except.ok out)
    ∧ (∀ tsNs, tsNsOfAsOf asOf nowNs = Except.ok tsNs → fmt = Fmt.uuid →
        ((∃ out, (uuid6 fmt asOf seed seq nowNs r14 r48 st).1 = Except.ok out)
          ↔ 0 ≤ encodedInt tsNs seed seq r14 r48 st
            ∧ encodedInt tsNs seed seq r14 r48 st < 2 ^ 128)) := by
  refine ⟨?_, ?_, rfl, fun dt => rfl, ?_, ?_, fun isNan => by cases isNan <;> rfl,
    ?_, ?_⟩
  · intro h
    subst h
    rfl
  · intro e herr
    refine ⟨?_, ?_⟩ <;> simp [uuid6, herr]
  · intro f hov
    simp [tsNsOfAsOf, pyFloatTsNs, hov]
  · intro f hov
    simp [tsNsOfAsOf, pyFloatTsNs, hov]
  · intro tsNs hok hF
    cases fmt with
    | uuid => exact absurd rfl hF
    | int =>
      exact ⟨Output.intOut (packInt (timeValOfTsNs tsNs)
        (seqStep seq r14 (timeValOfTsNs tsNs) st).1 (nodeOf seed r48)),
        by simp [uuid6, hok]⟩
    | hex =>
      exact ⟨Output.hexOut (pyHex32 (packInt (timeValOfTsNs tsNs)
        (seqStep seq r14 (timeValOfTsNs tsNs) st).1 (nodeOf seed r48))),
        by simp [uuid6, hok]⟩
    | str =>
      exact ⟨Output.strOut (pyDashed (pyHex32 (packInt (timeValOfTsNs tsNs)
        (seqStep seq r14 (timeValOfTsNs tsNs) st).1 (nodeOf seed r48)))),
        by simp [uuid6, hok]⟩
  · intro tsNs hok hF
    subst hF
    have hrw : (uuid6 Fmt.uuid asOf seed seq nowNs r14 r48 st).1
        = (uuidOfInt (encodedInt tsNs seed seq r14 r48 st)).map
            Output.uuidOut := by
      simp [uuid6, hok, encodedInt]
    rw [hrw]
    unfold uuidOfInt
    by_cases hc : 0 ≤ encodedInt tsNs seed seq r14 r48 st
        ∧ encodedInt tsNs seed seq r14 r48 st < 2 ^ 128
    · rw [if_pos hc]
      exact ⟨fun _ => hc, fun _ => ⟨_, rfl⟩⟩
    · rw [if_neg hc]
      refine ⟨?_, fun h => absurd h hc⟩
      rintro ⟨out, hout⟩
      exact Except.noConfusion hout

set_option maxRecDepth 4000 in
theorem C6_invalid_argument_witness :
    ((uuid6 Fmt.int AsOf.other Option.none Option.none 0 0 0 initState).1
        = Except.error "Unexpected value for as_of")
    ∧ (uuid6 Fmt.int (AsOf.float (PyFloat.mk 1 1023)) Option.none Option.none
        0 0 0 initState).1
        = Except.error "cannot convert float infinity to integer"
    ∧ ∃ out, (uuid6 Fmt.int (AsOf.float (PyFloat.mk 0 0)) Option.none
        Option.none 0 0 0 initState).1 = Except.ok out :=
  ⟨(C6_invalid_argument Fmt.int AsOf.other Option.none Option.none 0 0 0
      initState).1 rfl,
    ((C6_invalid_argument Fmt.int (AsOf.float (PyFloat.mk 1 1023)) Option.none
      Option.none 0 0 0 initState).2.1
      "cannot convert float infinity to integer" (by decide)).1,
    (C6_invalid_argument Fmt.int (AsOf.float (PyFloat.mk 0 0)) Option.none
      Option.none 0 0 0 initState).2.2.2.2.2.2.2.1 0 (by decide)
      (by decide)⟩



/-- Exact-value comparison of two Python floats `f.mantissa·2^f.exp2 <
g.mantissa·2^g.exp2`, stated with the common power of two cleared. -/
def PyFloat.lt (f g : PyFloat) : Prop :=
  f.mantissa * 2 ^ (f.exp2 - min f.exp2 g.exp2).toNat
    < g.mantissa * 2 ^ (g.exp2 - min f.exp2 g.exp2).toNat

instance (f g : PyFloat) : Decidable (PyFloat.lt f g) := by
  unfold PyFloat.lt
  exact inferInstance

theorem seqStep_snd (seq : Option Int) (r tv : Int) (st : SeqState) :
    (seqStep seq r tv st).2
      = SeqState.mk tv (Option.some (seqStep seq r tv st).1) := rfl

set_option maxRecDepth 8000 in
/-- C7, counterexample to the claim as stated: after a call that left the
stored sequence at 16382 (e.g. by passing `seq=16382`), the two float
instants T1 = 2^-30 s < T2 = 2^-29 s fall in the same 100-ns tick, and the
second call increments the sequence past the 14-bit mask (16383 → 16384,
masked to 0), so the identifier generated at T2 is numerically *smaller*
than the one generated at T1 with the same seed. -/
theorem C7_ordering_counterexample :
    PyFloat.lt (PyFloat.mk 1 (-30)) (PyFloat.mk 1 (-29))
    ∧ (uuid6 Fmt.int (AsOf.float (PyFloat.mk 1 (-30))) (Option.some 0)
          Option.none 0 0 0
          (uuid6 Fmt.int (AsOf.float (PyFloat.mk 0 0)) (Option.some 0)
            (Option.some 16382) 0 0 0 initState).2).1
        = Except.ok (Output.intOut (packInt GREGORIAN_OFFSET 16383 0))
    ∧ (uuid6 Fmt.int (AsOf.float (PyFloat.mk 1 (-29))) (Option.some 0)
          Option.none 0 0 0
          (uuid6 Fmt.int (AsOf.float (PyFloat.mk 1 (-30))) (Option.some 0)
            Option.none 0 0 0
            (uuid6 Fmt.int (AsOf.float (PyFloat.mk 0 0)) (Option.some 0)
              (Option.some 16382) 0 0 0 initState).2).2).1
        = Except.ok (Output.intOut (packInt GREGORIAN_OFFSET 16384 0))
    ∧ packInt GREGORIAN_OFFSET 16384 0 < packInt GREGORIAN_OFFSET 16383 0 := by
  exact ⟨by decide, by decide, by decide, by decide⟩

/-- C7 (amended): two consecutive encoder calls with the same `seed`, `seq`
not supplied, at instants `tsNs1 < tsNs2` (nanoseconds since 1970), yield
numerically increasing integer identifiers, provided the instants fall in
different 100-ns ticks or no 14-bit sequence wraparound occurs between the
calls (the sequence used for the first is not ≡ 2^14 − 1 (mod 2^14)). -/
theorem C7_ordering (st : SeqState) (sd r1 r2 : Int) (r48a r48b : Nat)
    (tsNs1 tsNs2 : Int) (h12 : tsNs1 < tsNs2)
    (hwrap : timeValOfTsNs tsNs1 = timeValOfTsNs tsNs2 →
      (seqStep Option.none r1 (timeValOfTsNs tsNs1) st).1 % 2 ^ 14
        ≠ 2 ^ 14 - 1) :
    encodedInt tsNs1 (Option.some sd) Option.none r1 r48a st
      < encodedInt tsNs2 (Option.some sd) Option.none r2 r48b
          (seqStep Option.none r1 (timeValOfTsNs tsNs1) st).2 := by
  have htv : timeValOfTsNs tsNs1 ≤ timeValOfTsNs tsNs2 := by
    unfold timeValOfTsNs
    omega
  have hs2 : (seqStep Option.none r2 (timeValOfTsNs tsNs2)
        (seqStep Option.none r1 (timeValOfTsNs tsNs1) st).2).1
      = if timeValOfTsNs tsNs2 ≤ timeValOfTsNs tsNs1 then
          (seqStep Option.none r1 (timeValOfTsNs tsNs1) st).1 + 1
        else (seqStep Option.none r1 (timeValOfTsNs tsNs1) st).1 := by
    rw [seqStep_snd]
    rfl
  simp only [encodedInt, nodeOf]
  rw [hs2]
  by_cases heq : timeValOfTsNs tsNs2 ≤ timeValOfTsNs tsNs1
  · have he : timeValOfTsNs tsNs1 = timeValOfTsNs tsNs2 :=
      le_antisymm htv heq
    have hw := hwrap he
    rw [if_pos heq, ← he]
    simp only [packInt]
    omega
  · rw [if_neg heq]
    have hlt : timeValOfTsNs tsNs1 < timeValOfTsNs tsNs2 :=
      lt_of_le_of_ne htv (fun he => heq (le_of_eq he.symm))
    simp only [packInt]
    omega

theorem C7_ordering_witness :
    (0 : Int) < 100
      ∧ encodedInt 0 (Option.some 0) Option.none 0 0 initState
        < encodedInt 100 (Option.some 0) Option.none 0 0
            (seqStep Option.none 0 (timeValOfTsNs 0) initState).2 :=
  ⟨by decide, C7_ordering initState 0 0 0 0 0 0 100 (by decide) (by decide)⟩



/-! ## Facts about the hex rendering -/

theorem hexCharToNat_digitChar :
    ∀ d : Nat, d < 16 → hexCharToNat (Nat.digitChar d) = d := by decide

theorem digitChar_ne_dash : ∀ d : Nat, d < 16 → Nat.digitChar d ≠ '-' := by
  decide

/-- A character is a lowercase hexadecimal digit. -/
def isLowerHexDigit (c : Char) : Bool :=
  ('0' ≤ c && c ≤ '9') || ('a' ≤ c && c ≤ 'f')

theorem digitChar_isLowerHex : ∀ d : Nat, d < 16 →
    isLowerHexDigit (Nat.digitChar d) = true := by decide

theorem ofDigits_replicate_zero (k : Nat) :
    Nat.ofDigits 16 (List.replicate k 0) = 0 := by
  induction k with
  | zero => rfl
  | succ k ih => simp [List.replicate_succ, Nat.ofDigits_cons, ih]

theorem foldl_hex_digits (L : List Nat) (hL : ∀ d ∈ L, d < 16) :
    ∀ acc : Nat,
      List.foldl (fun a c => 16 * a + hexCharToNat c) acc
          (L.map Nat.digitChar)
        = acc * 16 ^ L.length + Nat.ofDigits 16 L.reverse := by
  induction L with
  | nil => intro acc; simp
  | cons d L ih =>
    intro acc
    have hd : d < 16 := hL d (by simp)
    simp only [List.map_cons, List.foldl_cons, hexCharToNat_digitChar d hd]
    rw [ih (fun x hx => hL x (by simp [hx]))]
    simp [List.reverse_cons, Nat.ofDigits_append]
    ring

theorem digits16_length_le (v : Nat) (h : v < 16 ^ 32) :
    (Nat.digits 16 v).length ≤ 32 := by
  rcases Nat.eq_zero_or_pos v with rfl | hv
  · simp
  · by_contra hlen
    push_neg at hlen
    have h1 := Nat.base_pow_length_digits_le 16 v (by norm_num) hv.ne'
    have h2 : (16 : Nat) ^ 33 ≤ 16 ^ (Nat.digits 16 v).length :=
      Nat.pow_le_pow_right (by norm_num) hlen
    have h3 : (16 : Nat) ^ 33 = 16 * 16 ^ 32 := by ring
    omega

theorem mem_padLeftZeros_lt (v d : Nat)
    (hd : d ∈ padLeftZeros 32 (hexDigitsBE v)) : d < 16 := by
  unfold padLeftZeros hexDigitsBE at hd
  rcases List.mem_append.mp hd with hrep | hdig
  · have := List.eq_of_mem_replicate hrep
    omega
  · exact Nat.digits_lt_base (by norm_num) (List.mem_reverse.mp hdig)

/-- The hex rendering of a non-negative 128-bit value: its character list,
its length, and the fact that parsing it back recovers the value. -/
theorem pyHex32_natCast (v : Nat) (h : v < 2 ^ 128) :
    (pyHex32 (v : Int)).data
        = (padLeftZeros 32 (hexDigitsBE v)).map Nat.digitChar
    ∧ (pyHex32 (v : Int)).data.length = 32
    ∧ parseHexChars (pyHex32 (v : Int)).data = v := by
  have h16 : v < 16 ^ 32 := by
    have : (16 : Nat) ^ 32 = 2 ^ 128 := by norm_num
    omega
  have hlen16 : (Nat.digits 16 v).length ≤ 32 := digits16_length_le v h16
  have hnot : ¬((v : Int) < 0) := not_lt.mpr (Int.natCast_nonneg v)
  have hdata : (pyHex32 (v : Int)).data
      = (padLeftZeros 32 (hexDigitsBE v)).map Nat.digitChar := by
    unfold pyHex32
    rw [if_neg hnot]
    simp
  refine ⟨hdata, ?_, ?_⟩
  · rw [hdata]
    unfold padLeftZeros hexDigitsBE
    simp only [List.length_map, List.length_append, List.length_replicate,
      List.length_reverse]
    omega
  · rw [hdata]
    unfold parseHexChars
    rw [foldl_hex_digits _ (mem_padLeftZeros_lt v) 0]
    unfold padLeftZeros hexDigitsBE
    simp [List.reverse_append, Nat.ofDigits_append, ofDigits_replicate_zero,
      Nat.ofDigits_digits]



theorem take_drop_split (l : List Char) :
    l.take 8 ++ ((l.drop 8).take 4 ++ ((l.drop 12).take 4
        ++ ((l.drop 16).take 4 ++ l.drop 20))) = l := by
  have h8 : (l.drop 8).take 4 ++ l.drop 12 = l.drop 8 := by
    conv_rhs => rw [← List.take_append_drop 4 (l.drop 8)]
    rw [List.drop_drop]
  have h12 : (l.drop 12).take 4 ++ l.drop 16 = l.drop 12 := by
    conv_rhs => rw [← List.take_append_drop 4 (l.drop 12)]
    rw [List.drop_drop]
  have h16 : (l.drop 16).take 4 ++ l.drop 20 = l.drop 16 := by
    conv_rhs => rw [← List.take_append_drop 4 (l.drop 16)]
    rw [List.drop_drop]
  rw [h16, h12, h8, List.take_append_drop]

theorem stripDashes_pyDashed (s : String) (h : ∀ c ∈ s.data, c ≠ '-') :
    stripDashes (pyDashed s) = s := by
  cases s with
  | mk l =>
    have hl : ∀ c ∈ l, c ≠ '-' := h
    refine congrArg String.mk ?_
    have hseg : ∀ L : List Char, L ⊆ l →
        List.filter (fun c => !decide (c = '-')) L = L := fun L hsub =>
      List.filter_eq_self.mpr (fun a ha => by simpa using hl a (hsub ha))
    show List.filter (fun c => decide (c ≠ '-')) (l.take 8 ++ '-' ::
        ((l.drop 8).take 4 ++ '-' :: ((l.drop 12).take 4 ++ '-' ::
          ((l.drop 16).take 4 ++ '-' :: l.drop 20)))) = l
    simp only [List.filter_append, List.filter_cons]
    norm_num
    rw [hseg _ (List.take_subset 8 l),
      hseg _ ((List.take_subset 4 (l.drop 8)).trans (List.drop_subset 8 l)),
      hseg _ ((List.take_subset 4 (l.drop 12)).trans (List.drop_subset 12 l)),
      hseg _ ((List.take_subset 4 (l.drop 16)).trans (List.drop_subset 16 l)),
      hseg _ (List.drop_subset 20 l)]
    exact take_drop_split l



/-- C8: for a fixed timestamp tick, sequence and seed, the four output
representations denote the identical 128 bits: the hex output is the integer
rendered as 32 zero-padded lowercase hex digits; the dashed string is the
hex split 8-4-4-4-12 and joined with dashes (removing the dashes restores
the hex string); parsing either string (as the decoder does) recovers the
integer; and the structured `uuid.UUID` value carries the same integer. -/
theorem C8_representations (t s sd : Nat) (ht : t < 2 ^ 60)
    (x : Nat) (hx : x = pack t s (sd % 2 ^ 48)) :
    x < 2 ^ 128
    ∧ (pyHex32 (x : Int)).data
        = (padLeftZeros 32 (hexDigitsBE x)).map Nat.digitChar
    ∧ (pyHex32 (x : Int)).data.length = 32
    ∧ (∀ c ∈ (pyHex32 (x : Int)).data, isLowerHexDigit c = true)
    ∧ parseHexChars (pyHex32 (x : Int)).data = x
    ∧ stripDashes (pyDashed (pyHex32 (x : Int))) = pyHex32 (x : Int)
    ∧ parseUuidStr (pyDashed (pyHex32 (x : Int))) = x
    ∧ uuidOfInt (x : Int) = Except.ok (PyUUID.mk x)
    ∧ (PyUUID.mk x).int = x := by
  have hb : x < 2 ^ 128 := by
    subst hx
    unfold pack
    omega
  obtain ⟨hdata, hlen, hparse⟩ := pyHex32_natCast x hb
  have hnodash : ∀ c ∈ (pyHex32 (x : Int)).data, c ≠ '-' := by
    intro c hc
    rw [hdata] at hc
    obtain ⟨d, hd, rfl⟩ := List.mem_map.mp hc
    exact digitChar_ne_dash d (mem_padLeftZeros_lt x d hd)
  have hstrip : stripDashes (pyDashed (pyHex32 (x : Int)))
      = pyHex32 (x : Int) := stripDashes_pyDashed _ hnodash
  refine ⟨hb, hdata, hlen, ?_, hparse, hstrip, ?_, ?_, rfl⟩
  · intro c hc
    rw [hdata] at hc
    obtain ⟨d, hd, rfl⟩ := List.mem_map.mp hc
    exact digitChar_isLowerHex d (mem_padLeftZeros_lt x d hd)
  · unfold parseUuidStr
    rw [hstrip]
    exact hparse
  · unfold uuidOfInt
    rw [if_pos ⟨Int.natCast_nonneg x, by exact_mod_cast hb⟩]
    simp

theorem C8_representations_witness :
    ((3 : Nat) < 2 ^ 60 ∧ pack 3 5 (7 % 2 ^ 48) = pack 3 5 (7 % 2 ^ 48))
      ∧ parseHexChars (pyHex32 (pack 3 5 (7 % 2 ^ 48) : Int)).data
          = pack 3 5 (7 % 2 ^ 48)
      ∧ parseUuidStr (pyDashed (pyHex32 (pack 3 5 (7 % 2 ^ 48) : Int)))
          = pack 3 5 (7 % 2 ^ 48) :=
  ⟨⟨by decide, rfl⟩,
    (C8_representations 3 5 7 (by decide) _ rfl).2.2.2.2.1,
    (C8_representations 3 5 7 (by decide) _ rfl).2.2.2.2.2.2.1⟩

/-- C10: when `as_of` is a datetime, `replace(tzinfo=utc)` substitutes UTC
for the attached timezone instead of converting: two timezone-aware
datetimes with identical calendar fields but different UTC offsets denote
different instants, yet the encoder resolves them to the same `ts_ns`, the
same tick, and hence (with equal remaining arguments and state) the same
identifier — the original offset is silently discarded. -/
theorem C10_tz_replaced_not_converted (dt1 dt2 : PyDateTime) (o1 o2 : Int)
    (hy : dt1.year = dt2.year) (hmo : dt1.month = dt2.month)
    (hd : dt1.day = dt2.day) (hh : dt1.hour = dt2.hour)
    (hmi : dt1.minute = dt2.minute) (hs : dt1.second = dt2.second)
    (hus : dt1.microsecond = dt2.microsecond)
    (ho1 : dt1.tzOffsetSeconds = Option.some o1)
    (ho2 : dt2.tzOffsetSeconds = Option.some o2) (hne : o1 ≠ o2) :
    trueInstantNs dt1 ≠ trueInstantNs dt2
    ∧ replaceUtcTimestampNs dt1 = replaceUtcTimestampNs dt2
    ∧ tsNsOfAsOf (AsOf.datetime dt1) 0 = tsNsOfAsOf (AsOf.datetime dt2) 0
    ∧ timeValOfTsNs (replaceUtcTimestampNs dt1)
        = timeValOfTsNs (replaceUtcTimestampNs dt2)
    ∧ ∀ seed seq r14 st r48,
        encodedInt (replaceUtcTimestampNs dt1) seed seq r14 r48 st
          = encodedInt (replaceUtcTimestampNs dt2) seed seq r14 r48 st := by
  have hts : replaceUtcTimestampNs dt1 = replaceUtcTimestampNs dt2 := by
    unfold replaceUtcTimestampNs fieldsEpochSeconds
    rw [hy, hmo, hd, hh, hmi, hs, hus]
  refine ⟨?_, hts, ?_, ?_, ?_⟩
  · unfold trueInstantNs
    rw [ho1, ho2, hts]
    intro hcontra
    have := Option.some.inj hcontra
    omega
  · simp only [tsNsOfAsOf]
    rw [hts]
  · rw [hts]
  · intro seed seq r14 st r48
    rw [hts]

theorem C10_tz_replaced_not_converted_witness :
    ((PyDateTime.mk 2020 11 10 2 41 42 182162 (Option.some 0)).tzOffsetSeconds
        = Option.some 0
      ∧ (PyDateTime.mk 2020 11 10 2 41 42 182162
          (Option.some 3600)).tzOffsetSeconds = Option.some 3600
      ∧ (0 : Int) ≠ 3600)
    ∧ trueInstantNs (PyDateTime.mk 2020 11 10 2 41 42 182162 (Option.some 0))
        ≠ trueInstantNs (PyDateTime.mk 2020 11 10 2 41 42 182162
            (Option.some 3600))
    ∧ timeValOfTsNs (replaceUtcTimestampNs
          (PyDateTime.mk 2020 11 10 2 41 42 182162 (Option.some 0)))
        = timeValOfTsNs (replaceUtcTimestampNs
            (PyDateTime.mk 2020 11 10 2 41 42 182162 (Option.some 3600))) :=
  ⟨⟨rfl, rfl, by decide⟩,
    (C10_tz_replaced_not_converted
      (PyDateTime.mk 2020 11 10 2 41 42 182162 (Option.some 0))
      (PyDateTime.mk 2020 11 10 2 41 42 182162 (Option.some 3600))
      0 3600 rfl rfl rfl rfl rfl rfl rfl rfl rfl (by decide)).1,
    (C10_tz_replaced_not_converted
      (PyDateTime.mk 2020 11 10 2 41 42 182162 (Option.some 0))
      (PyDateTime.mk 2020 11 10 2 41 42 182162 (Option.some 3600))
      0 3600 rfl rfl rfl rfl rfl rfl rfl rfl rfl (by decide)).2.2.2.1⟩


end UUID6
